import Mathlib

/-!
Verification of the antivirus core of the umbrella_maya_plugin repository:
a shallow embedding in Lean 4 of the pattern detector (src/antivirus/detector.rs),
the file scanner filter (src/antivirus/scanner.rs) and the backup cleaner
(src/antivirus/cleaner.rs), together with theorems settling the specified
properties.  Paths are modelled with Unix separators; the filesystem is an
association list from path to text content; fallible filesystem operations are
driven by an explicit environment of failure flags, and every successful
filesystem effect is recorded in a trace.
-/

/-! ## String utilities mirroring Rust std behaviour -/

/-- Boolean test that the first character list occurs contiguously inside the
second, mirroring Rust str contains for literal needles. -/
def subListOf (needle : List Char) : List Char → Bool
  | [] => needle.isEmpty
  | c :: rest => needle.isPrefixOf (c :: rest) || subListOf needle rest

/-- Rust str contains with a literal string needle. -/
def strContains (haystack needle : String) : Bool :=
  subListOf needle.data haystack.data

/-- Rust str to_lowercase (our inputs are ASCII, where Rust and Char.toLower
agree). -/
def strToLower (s : String) : String :=
  String.mk (s.data.map Char.toLower)

/-- Split a character list at every occurrence of a separator character;
always returns at least one (possibly empty) segment, like Rust str split. -/
def splitOnChar (sep : Char) : List Char → List (List Char)
  | [] => [[]]
  | c :: rest =>
    if c = sep then [] :: splitOnChar sep rest
    else
      match splitOnChar sep rest with
      | [] => [[c]]
      | h :: t => (c :: h) :: t

/-- Split a string at a separator character, as strings. -/
def splitStr (sep : Char) (s : String) : List String :=
  (splitOnChar sep s.data).map String.mk

/-- Strip one trailing carriage return from a line. -/
def stripCR (l : List Char) : List Char :=
  if l.getLast? = some '\r' then l.dropLast else l

/-- Rust str lines: split on a line feed, drop a final empty segment produced by
a trailing line feed, and strip one trailing carriage return per line. -/
def rustLines (s : String) : List String :=
  let parts := splitOnChar '\n' s.data
  let parts := if parts.getLast? = some [] then parts.dropLast else parts
  parts.map (fun l => String.mk (stripCR l))

/-- Rust Path parent rendered as a string (Unix separators): all components but
the last, joined; the empty string when there is no parent component. -/
def parentDir (p : String) : String :=
  String.intercalate "/" ((splitStr '/' p).dropLast)

/-- Rust Path file_name rendered as a string: the component after the last
separator. -/
def fileName (p : String) : String :=
  (splitStr '/' p).getLastD ""

/-- Rust Path extension: the part of the file name after the final dot; none
when there is no dot, or when the only dot is a leading one. -/
def pathExtension (p : String) : Option String :=
  let parts := splitStr '.' (fileName p)
  match parts with
  | [] => none
  | [_] => none
  | first :: _ :: _ =>
    if first = "" ∧ parts.length = 2 then none
    else some (parts.getLastD "")

/-- The f32 constant 0.8 of the detector, as the exact rational 4/5 (written
with an explicit constructor so that kernel reduction works; see
conf08_eq_four_fifths). -/
def conf08 : Rat := Rat.mk' 4 5 (by decide) (by decide)

/-- Rust f32 max on the exact rationals used by the detector. -/
def ratMax (a b : Rat) : Rat := if a < b then b else a

/-! ## Detector (src/antivirus/detector.rs) -/

/-- Threat level classification. -/
inductive ThreatLevel where
  | level_none
  | low
  | medium
  | high
  | critical
deriving DecidableEq, Repr

/-- PatternDetector threat_level_priority. -/
def threat_level_priority : ThreatLevel → Nat
  | .level_none => 0
  | .low => 1
  | .medium => 2
  | .high => 3
  | .critical => 4

/-- A threat pattern definition. -/
structure ThreatPattern where
  name : String
  pattern : String
  threat_level : ThreatLevel
  description : String
deriving DecidableEq, Repr

/-- The default pattern catalog loaded by PatternDetector load_default_patterns.
The pattern fields are the literal Rust source strings (raw regex text). -/
def defaultPatterns : List ThreatPattern :=
  [ { name := "Suspicious Import",
      pattern := "import\\s+(os|subprocess|sys|socket)",
      threat_level := .low,
      description := "Potentially suspicious import statement" },
    { name := "File System Access",
      pattern := "(os\\.system|subprocess\\.call|subprocess\\.run)",
      threat_level := .medium,
      description := "Direct system command execution" },
    { name := "Network Activity",
      pattern := "(socket\\.|urllib|requests\\.|http)",
      threat_level := .medium,
      description := "Network communication detected" },
    { name := "Eval/Exec Usage",
      pattern := "(eval\\s*\\(|exec\\s*\\()",
      threat_level := .high,
      description := "Dynamic code execution detected" },
    { name := "File Deletion",
      pattern := "(os\\.remove|os\\.unlink|shutil\\.rmtree)",
      threat_level := .high,
      description := "File deletion operations detected" },
    { name := "Registry Access",
      pattern := "(_winreg|winreg)",
      threat_level := .critical,
      description := "Windows registry access detected" } ]

/-- Result of a threat detection operation.  The f32 confidence is modelled as
a rational; the source only ever computes with the exact constants 0.0, 0.8
and 1.0 and binary max, all exact in f32. -/
structure DetectionResult where
  file_path : String
  threat_level : ThreatLevel
  threat_type : String
  description : String
  line_numbers : List Nat
  confidence : Rat
deriving DecidableEq, Repr

namespace DetectionResult

/-- DetectionResult clean constructor. -/
def clean (file_path : String) : DetectionResult :=
  { file_path := file_path,
    threat_level := .level_none,
    threat_type := "None",
    description := "No threats detected",
    line_numbers := [],
    confidence := 1 }

/-- DetectionResult threat constructor. -/
def threat (file_path : String) (threat_level : ThreatLevel)
    (threat_type description : String) (line_numbers : List Nat)
    (confidence : Rat) : DetectionResult :=
  { file_path := file_path,
    threat_level := threat_level,
    threat_type := threat_type,
    description := description,
    line_numbers := line_numbers,
    confidence := confidence }

end DetectionResult

/-- The mutable loop state of PatternDetector detect: running highest threat
level, detected patterns in encounter order, matched 1-based line numbers, and
the running max confidence. -/
structure DetectState where
  highest : ThreatLevel
  threats : List ThreatPattern
  lineNums : List Nat
  conf : Rat
deriving DecidableEq, Repr

/-- Loop state before any line is scanned. -/
def initState : DetectState :=
  { highest := .level_none, threats := [], lineNums := [], conf := 0 }

/-- One pattern test of the inner loop of detect: on a case-insensitive literal
containment match, push the pattern and the 1-based line number, raise the
running maximum threat level by priority, and raise the confidence to 0.8. -/
def matchStep (lineIdx : Nat) (line : String) (s : DetectState)
    (p : ThreatPattern) : DetectState :=
  if strContains (strToLower line) (strToLower p.pattern) then
    { highest :=
        if threat_level_priority p.threat_level >
            threat_level_priority s.highest then p.threat_level else s.highest,
      threats := s.threats ++ [p],
      lineNums := s.lineNums ++ [lineIdx + 1],
      conf := ratMax s.conf conf08 }
  else s

/-- Inner loop of detect: test one line against every pattern in order. -/
def scanLine (patterns : List ThreatPattern) (lineIdx : Nat) (line : String)
    (s : DetectState) : DetectState :=
  patterns.foldl (matchStep lineIdx line) s

/-- Outer loop of detect over enumerated lines (0-based index, as Rust
enumerate produces; matchStep records index + 1). -/
def scanLines (patterns : List ThreatPattern) :
    Nat → List String → DetectState → DetectState
  | _, [], s => s
  | n, l :: rest, s => scanLines patterns (n + 1) rest (scanLine patterns n l s)

/-- The whole scanning loop of detect over a file content. -/
def detectScan (patterns : List ThreatPattern) (content : String) : DetectState :=
  scanLines patterns 0 (rustLines content) initState

/-- PatternDetector detect, on the content already read from the file: run the
scan loop, then build a clean result when nothing matched, else a threat result
with comma-joined names, semicolon-joined descriptions, all matched line
numbers and the running confidence. -/
def detectContent (patterns : List ThreatPattern) (file_path content : String) :
    DetectionResult :=
  let s := detectScan patterns content
  if s.threats.isEmpty then
    DetectionResult.clean file_path
  else
    DetectionResult.threat file_path s.highest
      (String.intercalate ", " (s.threats.map (fun p => p.name)))
      (String.intercalate "; " (s.threats.map (fun p => p.description)))
      s.lineNums s.conf

/-- The fold computing the running maximum threat level, exactly as detect
updates its highest variable. -/
def maxLevel (ls : List ThreatLevel) : ThreatLevel :=
  ls.foldl
    (fun acc l =>
      if threat_level_priority l > threat_level_priority acc then l else acc)
    .level_none

/-! ## Scanner (src/antivirus/scanner.rs) -/

/-- Options for configuring file scanning. -/
structure ScanOptions where
  recursive : Bool
  include_extensions : List String
  exclude_extensions : List String
  max_file_size : Option Nat
  follow_symlinks : Bool
deriving DecidableEq, Repr

/-- The Default instance of ScanOptions. -/
def ScanOptions.default : ScanOptions :=
  { recursive := true,
    include_extensions := ["ma", "mb", "mel", "py"],
    exclude_extensions := [],
    max_file_size := some (100 * 1024 * 1024),
    follow_symlinks := false }

/-- Scanner should_include_file.  The path is a string; metadataLen is the
result of the metadata size query, none when that query fails (the source then
skips the size check). -/
def should_include_file (file_path : String) (metadataLen : Option Nat)
    (options : ScanOptions) : Bool :=
  let extPass :=
    match pathExtension file_path with
    | none => true
    | some extension =>
      let ext_str := strToLower extension
      if !options.include_extensions.isEmpty &&
          !options.include_extensions.any (fun e => strToLower e == ext_str) then
        false
      else if options.exclude_extensions.any (fun e => strToLower e == ext_str) then
        false
      else
        true
  if !extPass then false
  else
    match options.max_file_size, metadataLen with
    | some max_size, some len => !(len > max_size)
    | _, _ => true

/-! ## Cleaner (src/antivirus/cleaner.rs) -/

/-- Options for configuring threat cleaning. -/
structure CleanOptions where
  create_backup : Bool
  backup_directory : Option String
  remove_original : Bool
  in_place : Bool
deriving DecidableEq, Repr

/-- The Default instance of CleanOptions. -/
def CleanOptions.default : CleanOptions :=
  { create_backup := true,
    backup_directory := none,
    remove_original := false,
    in_place := true }

/-- Status of a cleaning operation. -/
inductive CleanStatus where
  | success
  | alreadyClean
  | failed
  | quarantined
  | backupCreated
deriving DecidableEq, Repr

/-- Result of a cleaning operation. -/
structure CleanResult where
  file_path : String
  status : CleanStatus
  message : String
  backup_path : Option String
deriving DecidableEq, Repr

namespace CleanResult

/-- CleanResult success constructor. -/
def success (file_path message : String) (backup_path : Option String) :
    CleanResult :=
  { file_path := file_path, status := .success, message := message,
    backup_path := backup_path }

/-- CleanResult failed constructor. -/
def failed (file_path message : String) : CleanResult :=
  { file_path := file_path, status := .failed, message := message,
    backup_path := none }

/-- CleanResult already_clean constructor. -/
def already_clean (file_path : String) : CleanResult :=
  { file_path := file_path, status := .alreadyClean,
    message := "File is already clean", backup_path := none }

end CleanResult

/-- Cleaner can_clean: the extension, lower-cased, must be py, mel, ma or mb;
a file without extension is not cleanable. -/
def can_clean (file_path : String) : Bool :=
  match pathExtension file_path with
  | some extension =>
    let ext := strToLower extension
    ext == "py" || ext == "mel" || ext == "ma" || ext == "mb"
  | none => false

/-- BackupCleaner clean_file_content: rebuild the content line by line with a
line feed after each line; a line whose lower-cased text contains one of the
four dangerous markers is replaced by the audit marker prefix followed by the
original line; returns the rebuilt content and whether any line was replaced. -/
def clean_file_content (content : String) : String × Bool :=
  (rustLines content).foldl
    (fun acc line =>
      let line_lower := strToLower line
      if strContains line_lower "os.system" ||
          strContains line_lower "subprocess.call" ||
          strContains line_lower "eval(" ||
          strContains line_lower "exec(" then
        (acc.1 ++ "# REMOVED BY UMBRELLA: " ++ line ++ "\n", true)
      else
        (acc.1 ++ line ++ "\n", acc.2))
    ("", false)

/-- The filesystem, as an association list from path to text content; lookup
takes the first binding. -/
abbrev FS := List (String × String)

/-- Write a file: bind the path to the content, dropping any earlier binding
for the same path (fs copy and fs write overwrite an existing destination). -/
def FS.setFile (fs : FS) (p c : String) : FS :=
  (p, c) :: fs.filter (fun kv => !(kv.1 == p))

/-- One successful filesystem effect performed by the cleaner.  Failed
attempts perform no effect and are not recorded. -/
inductive FsOp where
  | read (path : String)
  | mkdir (dir : String)
  | copy (src dst : String)
  | write (path : String) (content : String)
deriving DecidableEq, Repr

/-- Whether an effect is a backup copy. -/
def FsOp.isCopy : FsOp → Bool
  | .copy _ _ => true
  | _ => false

/-- Whether an effect mutates the filesystem by writing file content. -/
def FsOp.isWrite : FsOp → Bool
  | .write _ _ => true
  | _ => false

/-- The environment driving the fallible filesystem calls of one clean run:
whether the backup directory already exists, which operations fail, and the
whole-second unix timestamp used for the backup file name. -/
structure FsEnv where
  backupDirExists : Bool
  mkdirFails : Bool
  copyFails : Bool
  writeFails : Bool
  readFails : Bool
  timestamp : Nat
deriving DecidableEq, Repr

/-- The backup directory resolved by create_backup: the configured override,
or a _virus_backup directory next to the original file. -/
def resolve_backup_dir (file_path : String) (options : CleanOptions) : String :=
  match options.backup_directory with
  | some dir => dir
  | none =>
    let parent := parentDir file_path
    if parent = "" then "_virus_backup" else parent ++ "/_virus_backup"

/-- The backup path generated by create_backup: the resolved directory, the
whole-second timestamp, an underscore, and the original file name. -/
def backup_path_for (env : FsEnv) (file_path : String) (options : CleanOptions) :
    String :=
  resolve_backup_dir file_path options ++ "/" ++
    toString env.timestamp ++ "_" ++ fileName file_path

/-- BackupCleaner create_backup: check the source exists, create the backup
directory when missing, build the timestamped backup file name, and copy the
source there.  Returns the backup path, the updated filesystem and the trace
of successful effects; on any failure returns the error with the filesystem
unchanged by the failed step. -/
def create_backup (env : FsEnv) (fs : FS) (file_path : String)
    (options : CleanOptions) : Except String String × FS × List FsOp :=
  match fs.lookup file_path with
  | none => (.error ("Source file does not exist: " ++ file_path), fs, [])
  | some content =>
    let backup_dir := resolve_backup_dir file_path options
    if !env.backupDirExists && env.mkdirFails then
      (.error "Failed to create backup directory", fs, [])
    else
      let dirTrace : List FsOp :=
        if env.backupDirExists then [] else [FsOp.mkdir backup_dir]
      if fileName file_path = "" then
        (.error "Invalid file name", fs, dirTrace)
      else
        let backup_path := backup_path_for env file_path options
        if env.copyFails then
          (.error "Failed to create backup", fs, dirTrace)
        else
          (.ok backup_path, fs.setFile backup_path content,
           dirTrace ++ [FsOp.copy file_path backup_path])

/-- Rust PathBuf set_extension with the cleaned suffix: replace the extension,
or append one when there is none. -/
def setExtensionCleaned (p : String) : String :=
  match pathExtension p with
  | some ext => p.dropRight (ext.length + 1) ++ ".cleaned"
  | none => p ++ ".cleaned"

/-- Decidable equality for Except values, needed to evaluate clean results. -/
instance instDecidableEqExcept {ε α : Type} [DecidableEq ε] [DecidableEq α] :
    DecidableEq (Except ε α) := fun a b =>
  match a, b with
  | .error x, .error y =>
    if h : x = y then .isTrue (by rw [h])
    else .isFalse (fun hh => by cases hh; exact h rfl)
  | .error _, .ok _ => .isFalse (fun hh => by cases hh)
  | .ok _, .error _ => .isFalse (fun hh => by cases hh)
  | .ok x, .ok y =>
    if h : x = y then .isTrue (by rw [h])
    else .isFalse (fun hh => by cases hh; exact h rfl)

/-- BackupCleaner clean: refuse unsupported types and missing files as Failed
results; read the content; return AlreadyClean when no line was neutralized;
otherwise create the backup first when requested (propagating its failure as
an error before any write), then write the cleaned content in place or to a
sibling cleaned file. -/
def clean (env : FsEnv) (fs : FS) (file_path : String) (options : CleanOptions) :
    Except String CleanResult × FS × List FsOp :=
  if !can_clean file_path then
    (.ok (CleanResult.failed file_path "File type not supported for cleaning"),
     fs, [])
  else
    match fs.lookup file_path with
    | none => (.ok (CleanResult.failed file_path "File does not exist"), fs, [])
    | some content =>
      if env.readFails then
        (.error "Failed to read file", fs, [])
      else
        let cleaned := clean_file_content content
        if !cleaned.2 then
          (.ok (CleanResult.already_clean file_path), fs, [FsOp.read file_path])
        else
          let afterBackup : Except String (Option String) × FS × List FsOp :=
            if options.create_backup then
              match create_backup env fs file_path options with
              | (.error e, fs1, tr) => (.error e, fs1, tr)
              | (.ok bp, fs1, tr) => (.ok (some bp), fs1, tr)
            else
              (.ok none, fs, [])
          match afterBackup with
          | (.error e, fs1, tr) => (.error e, fs1, [FsOp.read file_path] ++ tr)
          | (.ok backup_path, fs1, tr) =>
            if env.writeFails then
              (.error "Failed to write cleaned file", fs1,
               [FsOp.read file_path] ++ tr)
            else
              let target :=
                if options.in_place then file_path
                else setExtensionCleaned file_path
              (.ok (CleanResult.success file_path "File successfully cleaned"
                      backup_path),
               fs1.setFile target cleaned.1,
               [FsOp.read file_path] ++ tr ++ [FsOp.write target cleaned.1])

/-! ## Helper lemmas -/

/-- The detector confidence constant is the rational four fifths, i.e. 0.8. -/
theorem conf08_eq_four_fifths : conf08 = 4/5 := by
  unfold conf08
  rw [Rat.mk'_eq_divInt, Rat.divInt_eq_div]
  norm_num

/-- A property preserved by every step of a left fold, where the step is only
taken on members of the folded list, holds of the fold's result. -/
theorem foldl_preserves {α σ : Type} (P : σ → Prop) (f : σ → α → σ) :
    ∀ (l : List α), (∀ s a, a ∈ l → P s → P (f s a)) →
      ∀ s, P s → P (l.foldl f s) := by
  intro l
  induction l with
  | nil => intro _ s hs; simpa using hs
  | cons a t ih =>
    intro h s hs
    simp only [List.foldl_cons]
    exact ih (fun s' b hb hs' => h s' b (List.mem_cons_of_mem _ hb) hs') _
      (h s a (List.mem_cons_self _ _) hs)

/-- A property preserved by matchStep for every cataloged pattern is preserved
by a whole line scan. -/
theorem scanLine_preserves (P : DetectState → Prop)
    (patterns : List ThreatPattern) (lineIdx : Nat) (line : String)
    (h : ∀ s p, p ∈ patterns → P s → P (matchStep lineIdx line s p)) :
    ∀ s, P s → P (scanLine patterns lineIdx line s) :=
  fun s hs =>
    foldl_preserves P (matchStep lineIdx line) patterns
      (fun s' p hp hs' => h s' p hp hs') s hs

/-- A property preserved by matchStep for every cataloged pattern is preserved
by the whole scanning loop. -/
theorem scanLines_preserves (P : DetectState → Prop)
    (patterns : List ThreatPattern)
    (h : ∀ lineIdx line s p, p ∈ patterns → P s → P (matchStep lineIdx line s p)) :
    ∀ (lines : List String) (n : Nat) (s : DetectState), P s →
      P (scanLines patterns n lines s) := by
  intro lines
  induction lines with
  | nil => intro n s hs; exact hs
  | cons l t ih =>
    intro n s hs
    show P (scanLines patterns (n + 1) t (scanLine patterns n l s))
    exact ih (n + 1) _
      (scanLine_preserves P patterns n l (fun s' p hp => h n l s' p hp) s hs)

/-- The loop invariant of detect: the running highest level is the maximum of
the matched levels, the running confidence is 0 before any match and 0.8
after, line numbers and matched patterns are recorded together, and every
matched pattern is from the catalog. -/
def DetectInv (patterns : List ThreatPattern) (s : DetectState) : Prop :=
  s.highest = maxLevel (s.threats.map (fun p => p.threat_level)) ∧
  s.conf = (if s.threats.isEmpty then 0 else conf08) ∧
  (s.lineNums = [] ↔ s.threats = []) ∧
  ∀ p ∈ s.threats, p ∈ patterns

/-- matchStep preserves the detect loop invariant. -/
theorem matchStep_preserves_inv (patterns : List ThreatPattern) (lineIdx : Nat)
    (line : String) (s : DetectState) (p : ThreatPattern) (hp : p ∈ patterns)
    (hs : DetectInv patterns s) :
    DetectInv patterns (matchStep lineIdx line s p) := by
  obtain ⟨h1, h2, h3, h4⟩ := hs
  unfold matchStep
  by_cases hm : strContains (strToLower line) (strToLower p.pattern) = true
  · rw [if_pos hm]
    refine ⟨?_, ?_, ?_, ?_⟩
    · show (if threat_level_priority p.threat_level >
          threat_level_priority s.highest then p.threat_level else s.highest) =
        maxLevel ((s.threats ++ [p]).map (fun q => q.threat_level))
      rw [List.map_append, h1]
      unfold maxLevel
      rw [List.foldl_append]
      simp
    · show ratMax s.conf conf08 =
        (if (s.threats ++ [p]).isEmpty then 0 else conf08)
      have hne : (s.threats ++ [p]).isEmpty = false := by
        simp [List.isEmpty_iff]
      rw [hne]
      by_cases he : s.threats.isEmpty
      · rw [h2, if_pos he]; decide
      · rw [h2, if_neg he]; decide
    · show (s.lineNums ++ [lineIdx + 1] = [] ↔ s.threats ++ [p] = [])
      simp
    · intro q hq
      rcases List.mem_append.mp hq with h | h
      · exact h4 q h
      · simp only [List.mem_singleton] at h
        subst h; exact hp
  · rw [if_neg hm]
    exact ⟨h1, h2, h3, h4⟩

/-- The initial detect state satisfies the loop invariant. -/
theorem initState_inv (patterns : List ThreatPattern) :
    DetectInv patterns initState := by
  refine ⟨rfl, rfl, by simp [initState], by simp [initState]⟩

/-- The final scan state of detect satisfies the loop invariant. -/
theorem detectScan_inv (patterns : List ThreatPattern) (content : String) :
    DetectInv patterns (detectScan patterns content) :=
  scanLines_preserves _ patterns
    (fun li l s p hp hs => matchStep_preserves_inv patterns li l s p hp hs)
    (rustLines content) 0 initState (initState_inv patterns)

/-- The step function of maxLevel. -/
def levelStep (acc l : ThreatLevel) : ThreatLevel :=
  if threat_level_priority l > threat_level_priority acc then l else acc

/-- maxLevel is the fold of levelStep from the bottom level. -/
theorem maxLevel_eq_foldl (ls : List ThreatLevel) :
    maxLevel ls = ls.foldl levelStep .level_none := rfl

/-- The fold of levelStep returns its seed or a member of the list. -/
theorem foldl_levelStep_mem (ls : List ThreatLevel) :
    ∀ acc, ls.foldl levelStep acc = acc ∨ ls.foldl levelStep acc ∈ ls := by
  induction ls with
  | nil => intro acc; left; rfl
  | cons l t ih =>
    intro acc
    simp only [List.foldl_cons]
    rcases ih (levelStep acc l) with h | h
    · rw [h]
      unfold levelStep
      by_cases hc : threat_level_priority l > threat_level_priority acc
      · rw [if_pos hc]; right; exact List.mem_cons_self _ _
      · rw [if_neg hc]; left; rfl
    · right; exact List.mem_cons_of_mem _ h

/-- The fold of levelStep dominates its seed and every member by priority. -/
theorem foldl_levelStep_le (ls : List ThreatLevel) :
    ∀ acc,
      threat_level_priority acc ≤
        threat_level_priority (ls.foldl levelStep acc) ∧
      ∀ l ∈ ls,
        threat_level_priority l ≤
          threat_level_priority (ls.foldl levelStep acc) := by
  induction ls with
  | nil =>
    intro acc
    exact ⟨Nat.le_refl _, by intro l hl; cases hl⟩
  | cons l t ih =>
    intro acc
    simp only [List.foldl_cons]
    obtain ⟨ha, hall⟩ := ih (levelStep acc l)
    have hstep : threat_level_priority acc ≤ threat_level_priority (levelStep acc l) ∧
        threat_level_priority l ≤ threat_level_priority (levelStep acc l) := by
      unfold levelStep
      by_cases hc : threat_level_priority l > threat_level_priority acc
      · rw [if_pos hc]; omega
      · rw [if_neg hc]; omega
    refine ⟨Nat.le_trans hstep.1 ha, ?_⟩
    intro x hx
    rcases List.mem_cons.mp hx with h | h
    · subst h; exact Nat.le_trans hstep.2 ha
    · exact hall x h

/-- Every member of a level list is dominated by its maxLevel. -/
theorem le_maxLevel (ls : List ThreatLevel) (l : ThreatLevel) (h : l ∈ ls) :
    threat_level_priority l ≤ threat_level_priority (maxLevel ls) := by
  rw [maxLevel_eq_foldl]
  exact (foldl_levelStep_le ls .level_none).2 l h

/-- The maxLevel of a nonempty level list is one of its members. -/
theorem maxLevel_mem_of_ne_nil (ls : List ThreatLevel) (h : ls ≠ []) :
    maxLevel ls ∈ ls := by
  rcases foldl_levelStep_mem ls .level_none with hm | hm
  · cases ls with
    | nil => exact absurd rfl h
    | cons l t =>
      have hle := le_maxLevel (l :: t) l (List.mem_cons_self _ _)
      rw [maxLevel_eq_foldl] at hle ⊢
      rw [hm] at hle ⊢
      have : l = .level_none := by
        cases l <;> simp [threat_level_priority] at hle ⊢
      rw [← this]
      exact List.mem_cons_self _ _
  · rw [maxLevel_eq_foldl]
    exact hm

/-- When nothing matched, detect returns the clean result. -/
theorem detectContent_eq_clean (patterns : List ThreatPattern)
    (file_path content : String)
    (h : (detectScan patterns content).threats = []) :
    detectContent patterns file_path content = DetectionResult.clean file_path := by
  unfold detectContent
  simp [h]

/-- When something matched, detect returns a threat result assembled from the
final scan state. -/
theorem detectContent_eq_threat (patterns : List ThreatPattern)
    (file_path content : String)
    (h : (detectScan patterns content).threats ≠ []) :
    detectContent patterns file_path content =
      DetectionResult.threat file_path (detectScan patterns content).highest
        (String.intercalate ", "
          ((detectScan patterns content).threats.map (fun p => p.name)))
        (String.intercalate "; "
          ((detectScan patterns content).threats.map (fun p => p.description)))
        (detectScan patterns content).lineNums
        (detectScan patterns content).conf := by
  unfold detectContent
  simp [h]

/-- A line matching no cataloged pattern leaves the scan state untouched. -/
theorem scanLine_id_of_no_match :
    ∀ (patterns : List ThreatPattern) (lineIdx : Nat) (line : String),
      (∀ p ∈ patterns,
        strContains (strToLower line) (strToLower p.pattern) = false) →
      ∀ s, scanLine patterns lineIdx line s = s := by
  intro patterns
  induction patterns with
  | nil => intro _ _ _ s; rfl
  | cons p t ih =>
    intro lineIdx line h s
    show (p :: t).foldl (matchStep lineIdx line) s = s
    rw [List.foldl_cons]
    have hp := h p (List.mem_cons_self _ _)
    have hstep : matchStep lineIdx line s p = s := by
      unfold matchStep
      rw [if_neg (by rw [hp]; exact Bool.false_ne_true)]
    rw [hstep]
    exact ih lineIdx line (fun q hq => h q (List.mem_cons_of_mem _ hq)) s

/-- A file none of whose lines matches any cataloged pattern leaves the whole
scan at the initial state. -/
theorem scanLines_id_of_no_match (patterns : List ThreatPattern) :
    ∀ (lines : List String) (n : Nat),
      (∀ l ∈ lines, ∀ p ∈ patterns,
        strContains (strToLower l) (strToLower p.pattern) = false) →
      ∀ s, scanLines patterns n lines s = s := by
  intro lines
  induction lines with
  | nil => intro _ _ s; rfl
  | cons l t ih =>
    intro n h s
    show scanLines patterns (n + 1) t (scanLine patterns n l s) = s
    rw [scanLine_id_of_no_match patterns n l (h l (List.mem_cons_self _ _)) s]
    exact ih (n + 1) (fun l' hl' => h l' (List.mem_cons_of_mem _ hl')) s

/-- C1 counterexample: on a file whose only line is the os.system command, the
default-catalog detector reports neither the catalog level of the
system-execution marker, nor that line number, nor confidence 0.8 — patterns
are matched as literal substrings of their regex source text, and none of
those literals occurs in the line, so the result is the clean one. -/
theorem os_system_line_matches_no_default_pattern_cex :
    (detectContent defaultPatterns "test.py" "os.system('rm -rf /')").threat_level ≠
      ThreatLevel.medium ∧
    (detectContent defaultPatterns "test.py" "os.system('rm -rf /')").line_numbers ≠
      [1] ∧
    (detectContent defaultPatterns "test.py" "os.system('rm -rf /')").confidence ≠
      conf08 ∧
    detectContent defaultPatterns "test.py" "os.system('rm -rf /')" =
      DetectionResult.clean "test.py" := by
  decide

/-- C1 (amended): for a file each of whose lines is either the line
os.system('rm -rf /') or matches no default-catalog pattern, detect returns
the clean result — threat_level None, empty line numbers, confidence 1.0 —
because cataloged patterns are matched by literal substring containment of
their regex source text and no such literal occurs in that line. -/
theorem detect_os_system_file_returns_clean (file_path content : String)
    (h : ∀ l ∈ rustLines content,
      l = "os.system('rm -rf /')" ∨
      ∀ p ∈ defaultPatterns,
        strContains (strToLower l) (strToLower p.pattern) = false) :
    detectContent defaultPatterns file_path content =
      DetectionResult.clean file_path := by
  have hos : ∀ p ∈ defaultPatterns,
      strContains (strToLower "os.system('rm -rf /')")
        (strToLower p.pattern) = false := by decide
  have hall : ∀ l ∈ rustLines content, ∀ p ∈ defaultPatterns,
      strContains (strToLower l) (strToLower p.pattern) = false := by
    intro l hl
    rcases h l hl with h1 | h1
    · rw [h1]; exact hos
    · exact h1
  apply detectContent_eq_clean
  unfold detectScan
  rw [scanLines_id_of_no_match defaultPatterns (rustLines content) 0 hall
    initState]
  rfl

/-- C1 witness: a concrete two-line file, one benign line and the os.system
line, on which the amended claim applies. -/
theorem detect_os_system_file_returns_clean_witness :
    detectContent defaultPatterns "test.py" "print('hi')\nos.system('rm -rf /')" =
      DetectionResult.clean "test.py" :=
  detect_os_system_file_returns_clean "test.py"
    "print('hi')\nos.system('rm -rf /')" (by decide)

/-- C5: the reported threat level of every detection is the maximum, under the
priority order None < Low < Medium < High < Critical, of the levels of all
patterns matched anywhere in the file: it is the maxLevel fold of the matched
levels, it dominates every matched level, and it is attained by a match (or is
None when nothing matched). -/
theorem detect_threat_level_is_max (patterns : List ThreatPattern)
    (file_path content : String) :
    (detectContent patterns file_path content).threat_level =
      maxLevel
        ((detectScan patterns content).threats.map (fun p => p.threat_level)) ∧
    (∀ l ∈ (detectScan patterns content).threats.map (fun p => p.threat_level),
      threat_level_priority l ≤
        threat_level_priority
          (detectContent patterns file_path content).threat_level) ∧
    ((detectContent patterns file_path content).threat_level ∈
        (detectScan patterns content).threats.map (fun p => p.threat_level) ∨
      ((detectScan patterns content).threats = [] ∧
        (detectContent patterns file_path content).threat_level =
          ThreatLevel.level_none)) := by
  obtain ⟨h1, _, _, _⟩ := detectScan_inv patterns content
  by_cases he : (detectScan patterns content).threats = []
  · rw [detectContent_eq_clean patterns file_path content he, he]
    refine ⟨rfl, ?_, Or.inr ⟨rfl, rfl⟩⟩
    intro l hl
    simp at hl
  · rw [detectContent_eq_threat patterns file_path content he]
    have hmap : (detectScan patterns content).threats.map
        (fun p => p.threat_level) ≠ [] := by
      simpa using he
    refine ⟨h1, ?_, ?_⟩
    · intro l hl
      rw [show (DetectionResult.threat file_path
          (detectScan patterns content).highest _ _ _ _).threat_level =
          (detectScan patterns content).highest from rfl, h1]
      exact le_maxLevel _ l hl
    · left
      rw [show (DetectionResult.threat file_path
          (detectScan patterns content).highest _ _ _ _).threat_level =
          (detectScan patterns content).highest from rfl, h1]
      exact maxLevel_mem_of_ne_nil _ hmap

/-- C4 counterexample: with a caller-added custom pattern of threat level None
(the catalog is extensible through add_pattern), a file matching only that
pattern yields a detection whose threat_level is None while its matched
pattern set is nonempty and its confidence is 0.8, refuting the claimed
equivalence. -/
theorem detect_level_none_with_match_cex :
    ¬ (((detectContent (defaultPatterns ++
          [{ name := "Custom", pattern := "foo",
             threat_level := ThreatLevel.level_none, description := "d" }])
          "t.py" "foo").threat_level = ThreatLevel.level_none) ↔
       ((detectScan (defaultPatterns ++
          [{ name := "Custom", pattern := "foo",
             threat_level := ThreatLevel.level_none, description := "d" }])
          "foo").threats = [])) := by
  decide

/-- C4 (amended): for every catalog all of whose patterns have a threat level
above None — in particular the default catalog — the claimed equivalences
hold of every detection: threat_level is None iff the matched-pattern set is
empty iff the confidence is 1.0, and with at least one match the confidence
is at least 0.8. -/
theorem detect_invariant_equivalences (patterns : List ThreatPattern)
    (file_path content : String)
    (hp : ∀ p ∈ patterns, p.threat_level ≠ ThreatLevel.level_none) :
    (((detectContent patterns file_path content).threat_level =
        ThreatLevel.level_none) ↔
      ((detectScan patterns content).threats = [])) ∧
    (((detectScan patterns content).threats = []) ↔
      (detectContent patterns file_path content).confidence = 1) ∧
    ((detectScan patterns content).threats ≠ [] →
      conf08 ≤ (detectContent patterns file_path content).confidence) := by
  obtain ⟨h1, h2, _, h4⟩ := detectScan_inv patterns content
  by_cases he : (detectScan patterns content).threats = []
  · rw [detectContent_eq_clean patterns file_path content he]
    refine ⟨?_, ?_, ?_⟩
    · simp [DetectionResult.clean, he]
    · simp [DetectionResult.clean, he]
    · intro hne; exact absurd he hne
  · rw [detectContent_eq_threat patterns file_path content he]
    have hconf : (detectScan patterns content).conf = conf08 := by
      rw [h2, if_neg]
      simp [List.isEmpty_iff, he]
    have hlevel : (detectScan patterns content).highest ≠
        ThreatLevel.level_none := by
      intro h0
      cases hth : (detectScan patterns content).threats with
      | nil => exact he hth
      | cons q t =>
        have hq : q ∈ (detectScan patterns content).threats := by
          rw [hth]; exact List.mem_cons_self _ _
        have hle := le_maxLevel
          ((detectScan patterns content).threats.map (fun p => p.threat_level))
          q.threat_level (List.mem_map_of_mem _ hq)
        rw [← h1, h0] at hle
        have hqn := hp q (h4 q hq)
        cases hqe : q.threat_level <;>
          rw [hqe] at hle hqn <;>
          simp [threat_level_priority] at hle hqn
    refine ⟨?_, ?_, ?_⟩
    · constructor
      · intro h0; exact absurd h0 hlevel
      · intro h0; exact absurd h0 he
    · constructor
      · intro h0; exact absurd h0 he
      · intro h0
        rw [show (DetectionResult.threat file_path _ _ _ _
            (detectScan patterns content).conf).confidence =
            (detectScan patterns content).conf from rfl, hconf] at h0
        exact absurd h0 (by decide)
    · intro _
      rw [show (DetectionResult.threat file_path _ _ _ _
          (detectScan patterns content).conf).confidence =
          (detectScan patterns content).conf from rfl, hconf]

/-- C4 witness: the amended equivalences at the default catalog on a concrete
benign file. -/
theorem detect_invariant_equivalences_witness :
    (((detectContent defaultPatterns "a.py" "x").threat_level =
        ThreatLevel.level_none) ↔
      ((detectScan defaultPatterns "x").threats = [])) ∧
    (((detectScan defaultPatterns "x").threats = []) ↔
      (detectContent defaultPatterns "a.py" "x").confidence = 1) ∧
    ((detectScan defaultPatterns "x").threats ≠ [] →
      conf08 ≤ (detectContent defaultPatterns "a.py" "x").confidence) :=
  detect_invariant_equivalences defaultPatterns "a.py" "x" (by decide)

/-- The size-ceiling part of should_include_file in isolation: drop the file
only when both a ceiling is configured and the metadata query succeeded with a
larger size. -/
def size_check (metadataLen : Option Nat) (options : ScanOptions) : Bool :=
  match options.max_file_size, metadataLen with
  | some max_size, some len => !(len > max_size)
  | _, _ => true

/-- C6: a file whose extension appears case-insensitively in both the include
and the exclude extension lists is excluded by should_include_file —
exclusion always overrides inclusion. -/
theorem exclusion_overrides_inclusion (file_path : String)
    (metadataLen : Option Nat) (options : ScanOptions) (ext : String)
    (hext : pathExtension file_path = some ext)
    (hinc : ∃ e ∈ options.include_extensions, strToLower e = strToLower ext)
    (hexc : ∃ e ∈ options.exclude_extensions, strToLower e = strToLower ext) :
    should_include_file file_path metadataLen options = false := by
  obtain ⟨ei, hei, hei2⟩ := hinc
  obtain ⟨ex, hex, hex2⟩ := hexc
  have hia : options.include_extensions.any
      (fun e => strToLower e == strToLower ext) = true :=
    List.any_eq_true.mpr ⟨ei, hei, by rw [hei2, beq_self_eq_true]⟩
  have hxa : options.exclude_extensions.any
      (fun e => strToLower e == strToLower ext) = true :=
    List.any_eq_true.mpr ⟨ex, hex, by rw [hex2, beq_self_eq_true]⟩
  unfold should_include_file
  rw [hext]
  simp [hia, hxa]

/-- C6 witness: a concrete file whose py extension is both included (as PY)
and excluded (as py) is dropped. -/
theorem exclusion_overrides_inclusion_witness :
    should_include_file "a.py" (some 10)
      { recursive := true, include_extensions := ["PY"],
        exclude_extensions := ["py"], max_file_size := some 100,
        follow_symlinks := false } = false :=
  exclusion_overrides_inclusion "a.py" (some 10)
    { recursive := true, include_extensions := ["PY"],
      exclude_extensions := ["py"], max_file_size := some 100,
      follow_symlinks := false } "py" (by decide)
    ⟨"PY", by decide, by decide⟩ ⟨"py", by decide, by decide⟩

/-- C10: a path without extension skips both extension checks of
should_include_file — even with a nonempty include list — and is included
subject only to the size ceiling. -/
theorem no_extension_skips_extension_checks (file_path : String)
    (metadataLen : Option Nat) (options : ScanOptions)
    (hext : pathExtension file_path = none) :
    should_include_file file_path metadataLen options =
      size_check metadataLen options := by
  unfold should_include_file size_check
  rw [hext]
  simp

/-- C10 witness: a concrete extensionless file is included despite a nonempty
include list that could never admit it. -/
theorem no_extension_skips_extension_checks_witness :
    should_include_file "noext" (some 10)
      { recursive := true, include_extensions := ["py"],
        exclude_extensions := ["py"], max_file_size := some 100,
        follow_symlinks := false } =
      size_check (some 10)
        { recursive := true, include_extensions := ["py"],
          exclude_extensions := ["py"], max_file_size := some 100,
          follow_symlinks := false } :=
  no_extension_skips_extension_checks "noext" (some 10) _ (by decide)

/-- Shared shape lemma: on a supported, existing, readable file none of whose
lines needs neutralization, clean returns AlreadyClean, leaves the filesystem
untouched and performs a single read. -/
theorem clean_already_clean_eq (env : FsEnv) (fs : FS)
    (file_path content : String) (options : CleanOptions)
    (hc : can_clean file_path = true)
    (hl : fs.lookup file_path = some content)
    (hr : env.readFails = false)
    (hm : (clean_file_content content).2 = false) :
    clean env fs file_path options =
      (.ok (CleanResult.already_clean file_path), fs, [FsOp.read file_path]) := by
  unfold clean
  rw [hc, hl]
  simp [hr, hm]

/-- C2 counterexample: clean is not idempotent.  On a file whose single line
is an os.system call, the first clean (default options, in place) rewrites the
line to the audit marker form, which still contains the os.system substring;
the second clean therefore reports Success, not AlreadyClean, and changes the
content again. -/
theorem clean_twice_not_idempotent_cex :
    (clean { backupDirExists := false, mkdirFails := false, copyFails := false,
             writeFails := false, readFails := false, timestamp := 101 }
       (clean { backupDirExists := false, mkdirFails := false,
                copyFails := false, writeFails := false, readFails := false,
                timestamp := 100 }
          [("a.py", "os.system('x')")] "a.py" CleanOptions.default).2.1
       "a.py" CleanOptions.default).1 ≠
      Except.ok (CleanResult.already_clean "a.py") ∧
    (clean { backupDirExists := false, mkdirFails := false, copyFails := false,
             writeFails := false, readFails := false, timestamp := 101 }
       (clean { backupDirExists := false, mkdirFails := false,
                copyFails := false, writeFails := false, readFails := false,
                timestamp := 100 }
          [("a.py", "os.system('x')")] "a.py" CleanOptions.default).2.1
       "a.py" CleanOptions.default).2.1.lookup "a.py" ≠
      (clean { backupDirExists := false, mkdirFails := false,
               copyFails := false, writeFails := false, readFails := false,
               timestamp := 100 }
         [("a.py", "os.system('x')")] "a.py" CleanOptions.default).2.1.lookup
        "a.py" := by
  decide

/-- C2 (amended): clean is idempotent only on files it finds already clean:
when no line needs neutralization, clean leaves the file content byte
identical (the whole filesystem untouched) and reports AlreadyClean, and so
does a second clean of its output; when the first clean did neutralize a
line, the second clean modifies the output again and reports Success, because
the audit marker preserves the matched substring (see the counterexample). -/
theorem clean_idempotent_on_already_clean_files (env env' : FsEnv) (fs : FS)
    (file_path content : String) (options : CleanOptions)
    (hc : can_clean file_path = true)
    (hl : fs.lookup file_path = some content)
    (hr : env.readFails = false) (hr' : env'.readFails = false)
    (hm : (clean_file_content content).2 = false) :
    (clean env fs file_path options).2.1 = fs ∧
    (clean env fs file_path options).1 =
      .ok (CleanResult.already_clean file_path) ∧
    clean env' (clean env fs file_path options).2.1 file_path options =
      (.ok (CleanResult.already_clean file_path), fs, [FsOp.read file_path]) := by
  have h1 := clean_already_clean_eq env fs file_path content options hc hl hr hm
  refine ⟨by rw [h1], by rw [h1], ?_⟩
  rw [h1]
  exact clean_already_clean_eq env' fs file_path content options hc hl hr' hm

/-- C2 witness: the amended idempotence at a concrete already-clean file. -/
theorem clean_idempotent_on_already_clean_files_witness :
    (clean { backupDirExists := false, mkdirFails := false, copyFails := false,
             writeFails := false, readFails := false, timestamp := 100 }
       [("a.py", "print('hi')")] "a.py" CleanOptions.default).2.1 =
      [("a.py", "print('hi')")] ∧
    (clean { backupDirExists := false, mkdirFails := false, copyFails := false,
             writeFails := false, readFails := false, timestamp := 100 }
       [("a.py", "print('hi')")] "a.py" CleanOptions.default).1 =
      .ok (CleanResult.already_clean "a.py") ∧
    clean { backupDirExists := false, mkdirFails := false, copyFails := false,
            writeFails := false, readFails := false, timestamp := 101 }
      (clean { backupDirExists := false, mkdirFails := false,
               copyFails := false, writeFails := false, readFails := false,
               timestamp := 100 }
         [("a.py", "print('hi')")] "a.py" CleanOptions.default).2.1
      "a.py" CleanOptions.default =
      (.ok (CleanResult.already_clean "a.py"), [("a.py", "print('hi')")],
       [FsOp.read "a.py"]) :=
  clean_idempotent_on_already_clean_files _ _ _ "a.py" "print('hi')"
    CleanOptions.default (by decide) (by decide) (by decide) (by decide)
    (by decide)

/-- C7: when no line of a supported, existing, readable file needs
neutralization, clean returns AlreadyClean with no backup path, leaves every
file of the filesystem unchanged, and its only filesystem effect is the one
read — no write of any kind is performed. -/
theorem clean_already_clean_no_writes (env : FsEnv) (fs : FS)
    (file_path content : String) (options : CleanOptions)
    (hc : can_clean file_path = true)
    (hl : fs.lookup file_path = some content)
    (hr : env.readFails = false)
    (hm : (clean_file_content content).2 = false) :
    clean env fs file_path options =
      (.ok (CleanResult.already_clean file_path), fs, [FsOp.read file_path]) ∧
    (CleanResult.already_clean file_path).backup_path = none ∧
    ∀ op ∈ (clean env fs file_path options).2.2, op.isWrite = false := by
  have h1 := clean_already_clean_eq env fs file_path content options hc hl hr hm
  refine ⟨h1, rfl, ?_⟩
  rw [h1]
  intro op hop
  simp only [List.mem_singleton] at hop
  rw [hop]
  rfl

/-- C7 witness: the no-write guarantee at a concrete already-clean file. -/
theorem clean_already_clean_no_writes_witness :
    clean { backupDirExists := false, mkdirFails := false, copyFails := false,
            writeFails := false, readFails := false, timestamp := 100 }
      [("a.py", "print('hi')")] "a.py" CleanOptions.default =
      (.ok (CleanResult.already_clean "a.py"), [("a.py", "print('hi')")],
       [FsOp.read "a.py"]) ∧
    (CleanResult.already_clean "a.py").backup_path = none ∧
    ∀ op ∈ (clean (⟨false, false, false, false, false, 100⟩ : FsEnv)
      [("a.py", "print('hi')")] "a.py" CleanOptions.default).2.2,
      op.isWrite = false :=
  clean_already_clean_no_writes _ _ "a.py" "print('hi')" CleanOptions.default
    (by decide) (by decide) (by decide) (by decide)

/-- C8: on a file whose extension is outside the supported set of py, mel, ma
and mb, or on a file that does not exist, clean returns Ok with a Failed
result (not an error), the filesystem is untouched, and the effect trace is
empty — neither the file content nor anything else is read or written. -/
theorem clean_unsupported_or_missing_failed (env : FsEnv) (fs : FS)
    (file_path : String) (options : CleanOptions)
    (h : can_clean file_path = false ∨ fs.lookup file_path = none) :
    (∃ msg, (clean env fs file_path options).1 =
      .ok (CleanResult.failed file_path msg)) ∧
    (clean env fs file_path options).2.1 = fs ∧
    (clean env fs file_path options).2.2 = [] := by
  by_cases hc : can_clean file_path = true
  · have hl : fs.lookup file_path = none := by
      rcases h with h | h
      · rw [hc] at h; exact absurd h (by decide)
      · exact h
    refine ⟨⟨"File does not exist", ?_⟩, ?_, ?_⟩ <;>
      · unfold clean
        rw [hc, hl]
        rfl
  · have hc' : can_clean file_path = false := by
      cases hcc : can_clean file_path
      · rfl
      · exact absurd hcc hc
    refine ⟨⟨"File type not supported for cleaning", ?_⟩, ?_, ?_⟩ <;>
      · unfold clean
        rw [hc']
        rfl

/-- C8 witness: a concrete unsupported file and a concrete missing file both
yield Failed with no filesystem effects. -/
theorem clean_unsupported_or_missing_failed_witness :
    ((∃ msg, (clean (⟨false, false, false, false, false, 100⟩ : FsEnv)
        [("b.txt", "os.system('x')")] "b.txt" CleanOptions.default).1 =
      .ok (CleanResult.failed "b.txt" msg)) ∧
     (clean (⟨false, false, false, false, false, 100⟩ : FsEnv)
        [("b.txt", "os.system('x')")] "b.txt" CleanOptions.default).2.1 =
      [("b.txt", "os.system('x')")] ∧
     (clean (⟨false, false, false, false, false, 100⟩ : FsEnv)
        [("b.txt", "os.system('x')")] "b.txt" CleanOptions.default).2.2 = []) ∧
    ((∃ msg, (clean (⟨false, false, false, false, false, 100⟩ : FsEnv)
        [] "a.py" CleanOptions.default).1 =
      .ok (CleanResult.failed "a.py" msg)) ∧
     (clean (⟨false, false, false, false, false, 100⟩ : FsEnv)
        [] "a.py" CleanOptions.default).2.1 = [] ∧
     (clean (⟨false, false, false, false, false, 100⟩ : FsEnv)
        [] "a.py" CleanOptions.default).2.2 = []) :=
  ⟨clean_unsupported_or_missing_failed _ _ "b.txt" CleanOptions.default
      (Or.inl (by decide)),
   clean_unsupported_or_missing_failed _ _ "a.py" CleanOptions.default
      (Or.inr (by decide))⟩

/-- A cleanable path has a nonempty file name: can_clean requires an
extension, and an empty file name yields none. -/
theorem fileName_ne_empty_of_can_clean (file_path : String)
    (hc : can_clean file_path = true) : fileName file_path ≠ "" := by
  intro h
  have hext : pathExtension file_path = none := by
    unfold pathExtension
    rw [h]
    rfl
  unfold can_clean at hc
  rw [hext] at hc
  exact absurd hc (by decide)

/-- C3: on a supported, existing, readable file that needs neutralization and
with create_backup requested, the backup copy is written strictly before any
write to the target: if the backup step fails (directory creation or the copy
itself), clean returns an error with the filesystem — in particular the
original file's content — unmodified and no write in its trace; if the backup
step succeeds, the trace contains the backup copy and no write of any kind
precedes it. -/
theorem clean_backup_before_write (env : FsEnv) (fs : FS)
    (file_path content : String) (options : CleanOptions)
    (hc : can_clean file_path = true)
    (hl : fs.lookup file_path = some content)
    (hr : env.readFails = false)
    (hm : (clean_file_content content).2 = true)
    (hb : options.create_backup = true) :
    (((!env.backupDirExists && env.mkdirFails) || env.copyFails) = true →
      (∃ e, (clean env fs file_path options).1 = Except.error e) ∧
      (clean env fs file_path options).2.1 = fs ∧
      (clean env fs file_path options).2.2.all (fun op => !op.isWrite) = true) ∧
    (((!env.backupDirExists && env.mkdirFails) || env.copyFails) = false →
      (clean env fs file_path options).2.2.any FsOp.isCopy = true ∧
      ((clean env fs file_path options).2.2.takeWhile
        (fun op => !op.isCopy)).all (fun op => !op.isWrite) = true) := by
  have hn := fileName_ne_empty_of_can_clean file_path hc
  unfold clean create_backup
  rw [hc, hl, hb]
  cases hbd : env.backupDirExists <;> cases hmk : env.mkdirFails <;>
    cases hcp : env.copyFails <;> cases hwf : env.writeFails <;>
      simp [hr, hm, hn, FsOp.isWrite, FsOp.isCopy]

/-- C3 witness: on a concrete infected file with a fault-free environment, the
trace contains the backup copy and no write precedes it. -/
theorem clean_backup_before_write_witness :
    (clean (⟨false, false, false, false, false, 100⟩ : FsEnv)
      [("a.py", "os.system('x')")] "a.py" CleanOptions.default).2.2.any
        FsOp.isCopy = true ∧
    ((clean (⟨false, false, false, false, false, 100⟩ : FsEnv)
      [("a.py", "os.system('x')")] "a.py" CleanOptions.default).2.2.takeWhile
        (fun op => !op.isCopy)).all (fun op => !op.isWrite) = true :=
  (clean_backup_before_write (⟨false, false, false, false, false, 100⟩ : FsEnv)
    [("a.py", "os.system('x')")] "a.py" "os.system('x')" CleanOptions.default
    (by decide) (by decide) (by decide) (by decide) (by decide)).2 (by decide)

/-- Looking up a just-written file returns the written content. -/
theorem FS.lookup_setFile_self (fs : FS) (p c : String) :
    (fs.setFile p c).lookup p = some c := by
  unfold FS.setFile
  simp [List.lookup]

/-- Two backup paths that differ only in their timestamp segment are distinct
strings when the timestamp renderings differ. -/
theorem append_timestamp_ne (dir name ts1 ts2 : String) (hts : ts1 ≠ ts2) :
    dir ++ "/" ++ ts1 ++ "_" ++ name ≠ dir ++ "/" ++ ts2 ++ "_" ++ name := by
  intro hEq
  apply hts
  have hdata := congrArg String.data hEq
  simp only [String.data_append] at hdata
  have h1 := List.append_cancel_right hdata
  have h2 := List.append_cancel_right h1
  have h3 := List.append_cancel_left h2
  cases ts1
  cases ts2
  exact congrArg String.mk h3

/-- Inversion of a successful create_backup: the returned path follows the
timestamped naming scheme and the filesystem gained the backup copy. -/
theorem create_backup_ok_inv (env : FsEnv) (fs : FS)
    (file_path content : String) (options : CleanOptions) (bp : String)
    (fsa : FS) (tr : List FsOp)
    (hl : fs.lookup file_path = some content)
    (h : create_backup env fs file_path options = (.ok bp, fsa, tr)) :
    bp = backup_path_for env file_path options ∧
    fsa = fs.setFile bp content := by
  unfold create_backup at h
  rw [hl] at h
  by_cases h2 : fileName file_path = ""
  · cases hbd : env.backupDirExists <;> cases hmk : env.mkdirFails <;>
      cases hcp : env.copyFails <;> rw [hbd, hmk, hcp] at h <;>
        simp [h2] at h
  · cases hbd : env.backupDirExists <;> cases hmk : env.mkdirFails <;>
      cases hcp : env.copyFails <;> rw [hbd, hmk, hcp] at h <;>
        simp [h2] at h <;>
        obtain ⟨ha, hf, -⟩ := h <;>
        rw [← ha, ← hf] <;>
        exact ⟨rfl, rfl⟩

/-- C9 counterexample: two clean calls against the same file in the same
whole second generate the same backup path, and the second call's backup copy
overwrites the first backup file — after the second call the backup no longer
holds the original content. -/
theorem backup_same_second_overwrite_cex :
    (clean (⟨false, false, false, false, false, 100⟩ : FsEnv)
      [("a.py", "os.system('x')")] "a.py" CleanOptions.default).2.1.lookup
        "_virus_backup/100_a.py" = some "os.system('x')" ∧
    (clean (⟨false, false, false, false, false, 100⟩ : FsEnv)
      (clean (⟨false, false, false, false, false, 100⟩ : FsEnv)
        [("a.py", "os.system('x')")] "a.py" CleanOptions.default).2.1
      "a.py" CleanOptions.default).2.1.lookup "_virus_backup/100_a.py" =
      some "# REMOVED BY UMBRELLA: os.system('x')\n" := by
  decide

/-- C9 (amended): every backup is written at the path
resolved-backup-dir slash timestamp underscore original-file-name and holds
the file's pre-clean content; the scheme prevents an overwrite only across
distinct whole-second timestamps — two successful backups of the same file
whose timestamp renderings differ get distinct paths, while two within the
same second share one path and the second overwrites the first (see the
counterexample). -/
theorem backup_naming_and_distinct_timestamps (env env2 : FsEnv)
    (fs fs2 : FS) (file_path content content2 : String)
    (options : CleanOptions) (bp bp2 : String) (fsa fsb : FS)
    (tr tr2 : List FsOp)
    (hl : fs.lookup file_path = some content)
    (hl2 : fs2.lookup file_path = some content2)
    (h : create_backup env fs file_path options = (.ok bp, fsa, tr))
    (h2 : create_backup env2 fs2 file_path options = (.ok bp2, fsb, tr2)) :
    bp = resolve_backup_dir file_path options ++ "/" ++
      toString env.timestamp ++ "_" ++ fileName file_path ∧
    fsa.lookup bp = some content ∧
    (toString env.timestamp ≠ toString env2.timestamp → bp ≠ bp2) := by
  obtain ⟨ha, hf⟩ :=
    create_backup_ok_inv env fs file_path content options bp fsa tr hl h
  obtain ⟨ha2, -⟩ :=
    create_backup_ok_inv env2 fs2 file_path content2 options bp2 fsb tr2 hl2 h2
  refine ⟨ha, ?_, ?_⟩
  · rw [hf]
    exact FS.lookup_setFile_self fs bp content
  · intro hts
    rw [ha, ha2]
    exact append_timestamp_ne (resolve_backup_dir file_path options)
      (fileName file_path) (toString env.timestamp)
      (toString env2.timestamp) hts

/-- C9 witness: the naming scheme and the cross-second distinctness at two
concrete backups of the same file taken at seconds 100 and 101. -/
theorem backup_naming_and_distinct_timestamps_witness :
    "_virus_backup/100_a.py" =
      resolve_backup_dir "a.py" CleanOptions.default ++ "/" ++
        toString (100 : Nat) ++ "_" ++ fileName "a.py" ∧
    ([("_virus_backup/100_a.py", "os.system('x')"),
      ("a.py", "os.system('x')")] : FS).lookup "_virus_backup/100_a.py" =
      some "os.system('x')" ∧
    (toString (100 : Nat) ≠ toString (101 : Nat) →
      "_virus_backup/100_a.py" ≠ "_virus_backup/101_a.py") := by
  have h := backup_naming_and_distinct_timestamps
    (⟨false, false, false, false, false, 100⟩ : FsEnv)
    (⟨false, false, false, false, false, 101⟩ : FsEnv)
    [("a.py", "os.system('x')")] [("a.py", "os.system('x')")]
    "a.py" "os.system('x')" "os.system('x')" CleanOptions.default
    "_virus_backup/100_a.py" "_virus_backup/101_a.py"
    [("_virus_backup/100_a.py", "os.system('x')"), ("a.py", "os.system('x')")]
    [("_virus_backup/101_a.py", "os.system('x')"), ("a.py", "os.system('x')")]
    [FsOp.mkdir "_virus_backup", FsOp.copy "a.py" "_virus_backup/100_a.py"]
    [FsOp.mkdir "_virus_backup", FsOp.copy "a.py" "_virus_backup/101_a.py"]
    (by decide) (by decide) (by decide) (by decide)
  exact h
